import Mathlib

/-!
Shallow embedding of the wyoming-onnx-asr session protocol engine.

The embedding follows `src/wyoming_onnx_asr/handler.py` (class
`NemoAsrEventHandler`, methods `__init__` and `handle_event`) and the
startup code in `src/wyoming_onnx_asr/__main__.py` (function `main`).

Modelling choices:
  * A recognition backend (`onnx_asr` adapter) is an opaque capability
    `recognize(waveform, language, sample_rate)`; a raised Python exception
    is an `Except.error` carrying the exception's message string.
  * Audio samples are exact rationals: the decoded PCM frames that
    `soundfile.read(..., dtype="float32")` would return are carried
    directly on the chunk events, one row per frame, one entry per channel.
  * The temporary WAV file is the accumulated list of frames together with
    the format latched from the first chunk (`setframerate`,
    `setsampwidth`, `setnchannels`).
  * `handle_event` becomes a pure step function from a handler state and an
    inbound event to `Except` of (new state, emitted actions, continue
    flag); the Python `assert` statement failing is `Except.error`.
    Acquiring and releasing `self.model_lock` (the single `asyncio.Lock`
    created in `__main__.py` and shared by every handler and every model)
    are recorded as actions in the emitted trace.
-/

namespace OnnxAsr

/-- An opaque recognition backend (an `onnx_asr` `AsrAdapter`).
`recognize` returns the transcript text, or `Except.error` with the message
of the exception it raised. -/
structure Backend where
  recognize : List ℚ → String → Nat → Except String String

/-- The model registry `models: dict[str, AsrAdapter]` handed to the
handler: an insertion-ordered association list with distinct keys, as built
in `__main__.py`. -/
structure Registry where
  entries : List (String × Backend)

/-- Python `dict` lookup `models[tag]` / membership `tag in models`. -/
def lookupTag : List (String × Backend) → String → Option Backend
  | [], _ => none
  | (k, v) :: rest, tag => if k = tag then some v else lookupTag rest tag

def Registry.lookup (r : Registry) (tag : String) : Option Backend :=
  lookupTag r.entries tag

/-- `list(self.models.keys())`. -/
def Registry.keys (r : Registry) : List String :=
  r.entries.map Prod.fst

/-- The registry built by `main` in `__main__.py`: an `"en"` entry when the
English model was loaded (lines 129-148), then a `"multi"` entry when the
multilingual model was loaded (lines 150-169). No other key is ever
inserted. -/
def mainRegistry (engModel multiModel : Option Backend) : Registry :=
  ⟨(match engModel with | some m => [("en", m)] | none => []) ++
   (match multiModel with | some m => [("multi", m)] | none => [])⟩

/-- The open temporary WAV file: format parameters latched from the first
chunk, plus the accumulated PCM frames (one inner list per frame, one
sample per channel). -/
structure WavBuffer where
  rate : Nat
  width : Nat
  channels : Nat
  frames : List (List ℚ)
deriving DecidableEq

/-- The per-connection mutable state of `NemoAsrEventHandler`:
`self.request_language`, `self._wav_file`, `self.initial_prompt`. -/
structure HandlerState where
  requestLanguage : Option String
  wavFile : Option WavBuffer
  initialPrompt : Option String
deriving DecidableEq

/-- Inbound Wyoming events, carrying only what `handle_event` reads.
An `audioChunk` carries its declared format and its decoded frames;
`otherEvent` stands for any event type the handler does not recognize. -/
inductive InEvent where
  | audioChunk (rate width channels : Nat) (audio : List (List ℚ))
  | audioStop
  | transcribe (language : Option String)
  | describe
  | otherEvent
deriving DecidableEq

/-- Observable actions of one `handle_event` call, in program order:
writes of outbound events (`self.write_event`) and operations on the shared
`self.model_lock`. -/
inductive Action where
  | acquireLock
  | releaseLock
  | writeTranscript (text : String)
  | writeInfo
deriving DecidableEq

/-- A Python exception escaping `handle_event`; the only one the handler
itself can raise is the failure of `assert self._wav_file is not None`. -/
inductive HandlerError where
  | assertionFailed
deriving DecidableEq

/-- `lang = self.request_language or "en"` (handler.py line 74): Python
`or` falls through to `"en"` on `None` and on the falsy empty string. -/
def effectiveLang (requestLanguage : Option String) : String :=
  match requestLanguage with
  | none => "en"
  | some l => if l = "" then "en" else l

/-- The `if`/`elif` backend selection chain of handler.py lines 75-82:
exact `"en"` match only when the effective language is `"en"`; otherwise
`"multi"` if present, else `"en"` if present, else no model. -/
def selectModel (models : Registry) (lang : String) : Option Backend :=
  if lang = "en" ∧ (models.lookup "en").isSome then
    models.lookup "en"
  else if (models.lookup "multi").isSome then
    models.lookup "multi"
  else if (models.lookup "en").isSome then
    models.lookup "en"
  else
    none

/-- Python `repr` of a list of strings, as `f"{list(self.models.keys())}"`
renders it in the diagnostic (handler.py lines 90-91). -/
def pyStrList (keys : List String) : String :=
  "[" ++ String.intercalate ", " (keys.map fun k => "'" ++ k ++ "'") ++ "]"

/-- The diagnostic built on resolution failure (handler.py lines 84-94):
the language-naming message only when `self.request_language` is truthy,
else the generic no-model message. -/
def resolutionErrorMsg (requestLanguage : Option String) (models : Registry) : String :=
  match requestLanguage with
  | some l =>
    if l = "" then "No ASR model is available for transcription"
    else "Language '" ++ l ++ "' is not supported. Available models: " ++
      pyStrList models.keys
  | none => "No ASR model is available for transcription"

/-- Finalizing the WAV file (handler.py lines 68-71): `soundfile.read`
yields a two-dimensional array exactly when the file has more than one
channel, and then `np.mean(waveform, axis=1)` down-mixes each frame to the
arithmetic mean of its row; a single-channel file yields the samples
themselves. -/
def monoWaveform (frames : List (List ℚ)) (channels : Nat) : List ℚ :=
  if 1 < channels then
    frames.map fun f => f.sum / (f.length : ℚ)
  else
    frames.map fun f => f.headD 0

/-- One call of `NemoAsrEventHandler.handle_event` (handler.py lines
45-134), as a pure step: the new handler state, the trace of observable
actions in program order, and the returned continue flag. -/
def handleEvent (models : Registry) (s : HandlerState) (e : InEvent) :
    Except HandlerError (HandlerState × List Action × Bool) :=
  match e with
  | .audioChunk rate width channels audio =>
    match s.wavFile with
    | none =>
      Except.ok ({ s with wavFile := some ⟨rate, width, channels, audio⟩ }, [], true)
    | some buf =>
      Except.ok ({ s with wavFile := some { buf with frames := buf.frames ++ audio } },
        [], true)
  | .audioStop =>
    match s.wavFile with
    | none => Except.error HandlerError.assertionFailed
    | some buf =>
      match selectModel models (effectiveLang s.requestLanguage) with
      | none =>
        Except.ok ({ s with wavFile := none },
          [Action.writeTranscript ("ERROR: " ++ resolutionErrorMsg s.requestLanguage models)],
          false)
      | some model =>
        match model.recognize (monoWaveform buf.frames buf.channels)
            (effectiveLang s.requestLanguage) buf.rate with
        | Except.error e =>
          Except.ok ({ s with wavFile := none },
            [Action.acquireLock,
             Action.writeTranscript ("ERROR: Transcription failed: " ++ e),
             Action.releaseLock],
            false)
        | Except.ok text =>
          Except.ok ({ s with wavFile := none, requestLanguage := none },
            [Action.acquireLock, Action.releaseLock, Action.writeTranscript text],
            false)
  | .transcribe language =>
    Except.ok ({ s with requestLanguage := language }, [], true)
  | .describe =>
    Except.ok (s, [Action.writeInfo], true)
  | .otherEvent =>
    Except.ok (s, [], true)

/-- The server's per-connection event loop (wyoming `AsyncEventHandler.run`):
feed events in order, stop when the handler raises or returns a false
continue flag, and concatenate the action traces. -/
def runEvents (models : Registry) (s : HandlerState) :
    List InEvent → Except HandlerError (HandlerState × List Action)
  | [] => Except.ok (s, [])
  | e :: es =>
    match handleEvent models s e with
    | Except.error err => Except.error err
    | Except.ok (s1, acts, cont) =>
      if cont then
        match runEvents models s1 es with
        | Except.error err => Except.error err
        | Except.ok (s2, acts2) => Except.ok (s2, acts ++ acts2)
      else
        Except.ok (s1, acts)

/-- Whether an action is a `transcript` event written to the client. -/
def isTranscriptAction : Action → Bool
  | .writeTranscript _ => true
  | _ => false

/-- How many `transcript` events a trace writes to the client. -/
def countTranscripts (acts : List Action) : Nat :=
  acts.countP isTranscriptAction

/-- The state of the shared `model_lock` after running a trace of actions,
starting from `held`. -/
def lockHeldAfter (acts : List Action) (held : Bool) : Bool :=
  acts.foldl (fun h a =>
    match a with
    | Action.acquireLock => true
    | Action.releaseLock => false
    | _ => h) held

/-- The handler state right after `__init__` (handler.py lines 25-43). -/
def initState (initialPrompt : Option String) : HandlerState :=
  ⟨none, none, initialPrompt⟩

/-! ### Refinement models taken from the specification's words

These two definitions follow spec.md section 4.1, audio-stop steps 2 and 3,
word for word, to be compared with `effectiveLang` and `selectModel` above
(which are translated from the code). -/

/-- Spec model, section 4.1 step 2: "Resolve effective language:
`pendingLanguage` if set, else a default tag (`en`)." A set pending
language is any non-`none` value. -/
def specEffectiveLang (pendingLanguage : Option String) : String :=
  pendingLanguage.getD "en"

/-- Spec model, section 4.1 step 3: prefer an exact match for the effective
language; if absent, fall back to the `"multi"` entry; if that is also
absent, fall back to the `"en"` entry if one exists. -/
def specSelectModel (models : Registry) (lang : String) : Option Backend :=
  match models.lookup lang with
  | some m => some m
  | none =>
    match models.lookup "multi" with
    | some m => some m
    | none => models.lookup "en"

/-! ### The shared-lock concurrency model

`__main__.py` line 188 creates one `asyncio.Lock()` and hands the same lock
to every connection's handler; handler.py line 100 (`async with
self.model_lock`) brackets every `recognize` call with it.  The transition
system below has one such global lock and any number of sessions; each
session may request a recognition on some backend tag, may enter its
`recognize` call only by taking the free lock, and releases the lock when
the call finishes. -/

/-- What one session is doing with respect to recognition. -/
inductive Phase where
  | idle
  | waiting (tag : String)
  | recognizing (tag : String)
  | finished (tag : String)
deriving DecidableEq

/-- The whole-process state: who holds the single shared `model_lock`
(by session index), and each session's phase. -/
structure SysState where
  lockHolder : Option Nat
  phases : List Phase
deriving DecidableEq

/-- Interleaved execution: a session reaches its audio-stop handling
(`request`), enters `async with self.model_lock` when the lock is free
(`acquire`), and leaves the `async with` block (`release`). -/
inductive SysStep : SysState → SysState → Prop where
  | request (st : SysState) (i : Nat) (tag : String)
      (h : st.phases[i]? = some Phase.idle) :
      SysStep st ⟨st.lockHolder, st.phases.set i (Phase.waiting tag)⟩
  | acquire (st : SysState) (i : Nat) (tag : String)
      (hfree : st.lockHolder = none)
      (h : st.phases[i]? = some (Phase.waiting tag)) :
      SysStep st ⟨some i, st.phases.set i (Phase.recognizing tag)⟩
  | release (st : SysState) (i : Nat) (tag : String)
      (hheld : st.lockHolder = some i)
      (h : st.phases[i]? = some (Phase.recognizing tag)) :
      SysStep st ⟨none, st.phases.set i (Phase.finished tag)⟩

/-- Reachability in the concurrency model. -/
def Reaches : SysState → SysState → Prop :=
  Relation.ReflTransGen SysStep

/-- The server's initial state: lock free, `n` connected sessions idle. -/
def initSys (n : Nat) : SysState :=
  ⟨none, List.replicate n Phase.idle⟩

/-- A session inside its `recognize` call holds the shared lock. -/
def LockInv (st : SysState) : Prop :=
  ∀ i tag, st.phases[i]? = some (Phase.recognizing tag) → st.lockHolder = some i

/-! ### Concrete fixtures used by witnesses and counterexamples -/

/-- A backend whose `recognize` always succeeds with `"hello"`. -/
def okBackend : Backend := ⟨fun _ _ _ => Except.ok "hello"⟩

/-- A backend whose `recognize` always raises with message `"boom"`. -/
def failBackend : Backend := ⟨fun _ _ _ => Except.error "boom"⟩

/-- A backend recognizing everything as `"A"`. -/
def backA : Backend := ⟨fun _ _ _ => Except.ok "A"⟩

/-- A backend recognizing everything as `"B"`. -/
def backB : Backend := ⟨fun _ _ _ => Except.ok "B"⟩

/-- A one-channel, one-frame open WAV buffer. -/
def bufOne : WavBuffer := ⟨16000, 2, 1, [[0]]⟩

/-- A registry with only a failing English model. -/
def regEnFail : Registry := ⟨[("en", failBackend)]⟩

/-- A registry with only a succeeding English model. -/
def regEnOk : Registry := ⟨[("en", okBackend)]⟩

/-- The dual-model registry of the repository's tests: an `"en"` and a
`"multi"` entry with observably different backends. -/
def regEM : Registry := ⟨[("en", backA), ("multi", backB)]⟩

/-- An empty registry (the handler accepts any `dict`; `__main__.py` exits
before constructing a handler in this situation). -/
def emptyReg : Registry := ⟨[]⟩

/-- Whether an inbound event is an audio-chunk event. -/
def isChunkEvent : InEvent → Bool
  | .audioChunk _ _ _ _ => true
  | _ => false

/-- A two-channel open WAV buffer with two frames. -/
def bufStereo : WavBuffer := ⟨16000, 2, 2, [[1, 3], [2, 4]]⟩

/-- A buffering state with pending language `"en"`. -/
def stEnPending : HandlerState := ⟨some "en", some bufOne, none⟩

/-- A buffering state with pending language `"nl"`. -/
def stNlPending : HandlerState := ⟨some "nl", some bufOne, none⟩

/-- A buffering state holding the two-channel buffer, no pending language. -/
def stStereo : HandlerState := ⟨none, some bufStereo, none⟩

end OnnxAsr

/-! ## Helper lemmas -/

namespace OnnxAsr

/-- A tag absent from an association list's keys has no lookup result. -/
theorem lookupTag_eq_none (l : List (String × Backend)) (tag : String)
    (h : tag ∉ l.map Prod.fst) : lookupTag l tag = none := by
  induction l with
  | nil => rfl
  | cons p rest ih =>
    simp only [List.map_cons, List.mem_cons, not_or] at h
    obtain ⟨h1, h2⟩ := h
    unfold lookupTag
    rw [if_neg fun hk => h1 hk.symm]
    exact ih h2

/-- A tag absent from the registry's keys resolves to no backend. -/
theorem Registry.lookup_eq_none (r : Registry) (tag : String)
    (h : tag ∉ r.keys) : r.lookup tag = none :=
  lookupTag_eq_none r.entries tag h

/-- The registry built at startup only ever carries the keys `"en"` and
`"multi"`. -/
theorem mainRegistry_keys (engModel multiModel : Option Backend) :
    (mainRegistry engModel multiModel).keys ⊆ ["en", "multi"] := by
  cases engModel <;> cases multiModel <;>
    simp [mainRegistry, Registry.keys, List.subset_def]

/-- Over any registry whose keys are among `"en"` and `"multi"` (every
registry this program builds), the code's selection chain agrees with the
specification's preference order for every language. -/
theorem select_eq_spec (models : Registry) (hkeys : models.keys ⊆ ["en", "multi"])
    (lang : String) : selectModel models lang = specSelectModel models lang := by
  by_cases h1 : lang = "en"
  · subst h1
    cases hen : models.lookup "en" with
    | some m => simp [selectModel, specSelectModel, hen]
    | none =>
      cases hmu : models.lookup "multi" with
      | some m => simp [selectModel, specSelectModel, hen, hmu]
      | none => simp [selectModel, specSelectModel, hen, hmu]
  · by_cases h2 : lang = "multi"
    · subst h2
      cases hmu : models.lookup "multi" with
      | some m => simp [selectModel, specSelectModel, hmu, h1]
      | none =>
        cases hen : models.lookup "en" with
        | some m => simp [selectModel, specSelectModel, hmu, hen, h1]
        | none => simp [selectModel, specSelectModel, hmu, hen, h1]
    · have hnone : models.lookup lang = none := by
        apply Registry.lookup_eq_none
        intro hmem
        have hx := hkeys hmem
        simp only [List.mem_cons, List.mem_singleton, List.not_mem_nil, or_false] at hx
        rcases hx with hx | hx
        · exact h1 hx
        · exact h2 hx
      cases hmu : models.lookup "multi" with
      | some m => simp [selectModel, specSelectModel, hmu, hnone, h1]
      | none =>
        cases hen : models.lookup "en" with
        | some m => simp [selectModel, specSelectModel, hmu, hen, hnone, h1]
        | none => simp [selectModel, specSelectModel, hmu, hen, hnone, h1]

/-- Audio-stop with an open buffer, resolution-failure path (handler.py
lines 84-98): one diagnostic transcript, no lock use, `request_language`
unchanged, continue flag `False`. -/
theorem stop_resolution_fail (models : Registry) (s : HandlerState) (buf : WavBuffer)
    (h : s.wavFile = some buf)
    (hsel : selectModel models (effectiveLang s.requestLanguage) = none) :
    handleEvent models s InEvent.audioStop =
      Except.ok ({ s with wavFile := none },
        [Action.writeTranscript ("ERROR: " ++ resolutionErrorMsg s.requestLanguage models)],
        false) := by
  simp only [handleEvent, h, hsel]

/-- Audio-stop, recognizer-failure path (handler.py lines 100-111): the
lock is taken, the wrapped diagnostic transcript is written inside the
`async with` block, the lock is released on the early return,
`request_language` is unchanged, continue flag `False`. -/
theorem stop_recognize_error (models : Registry) (s : HandlerState) (buf : WavBuffer)
    (m : Backend) (e : String)
    (h : s.wavFile = some buf)
    (hsel : selectModel models (effectiveLang s.requestLanguage) = some m)
    (hrec : m.recognize (monoWaveform buf.frames buf.channels)
      (effectiveLang s.requestLanguage) buf.rate = Except.error e) :
    handleEvent models s InEvent.audioStop =
      Except.ok ({ s with wavFile := none },
        [Action.acquireLock,
         Action.writeTranscript ("ERROR: Transcription failed: " ++ e),
         Action.releaseLock],
        false) := by
  simp only [handleEvent, h, hsel, hrec]

/-- Audio-stop, success path (handler.py lines 100-121): lock taken and
released around `recognize`, one transcript with the recognized text,
`request_language` cleared, continue flag `False`. -/
theorem stop_recognize_ok (models : Registry) (s : HandlerState) (buf : WavBuffer)
    (m : Backend) (text : String)
    (h : s.wavFile = some buf)
    (hsel : selectModel models (effectiveLang s.requestLanguage) = some m)
    (hrec : m.recognize (monoWaveform buf.frames buf.channels)
      (effectiveLang s.requestLanguage) buf.rate = Except.ok text) :
    handleEvent models s InEvent.audioStop =
      Except.ok ({ s with wavFile := none, requestLanguage := none },
        [Action.acquireLock, Action.releaseLock, Action.writeTranscript text],
        false) := by
  simp only [handleEvent, h, hsel, hrec]

/-- An audio-chunk event writes nothing, continues, and leaves the buffer
open (handler.py lines 46-56). -/
theorem handleEvent_chunk (models : Registry) (s : HandlerState)
    (rate width channels : Nat) (audio : List (List ℚ)) :
    ∃ s1 : HandlerState,
      handleEvent models s (InEvent.audioChunk rate width channels audio) =
        Except.ok (s1, [], true) ∧ s1.wavFile.isSome = true := by
  cases hw : s.wavFile with
  | none =>
    refine ⟨{ s with wavFile := some ⟨rate, width, channels, audio⟩ }, ?_, rfl⟩
    simp [handleEvent, hw]
  | some buf =>
    refine ⟨{ s with wavFile := some { buf with frames := buf.frames ++ audio } }, ?_, rfl⟩
    simp [handleEvent, hw]

/-- Audio-stop with an open buffer writes exactly one transcript on every
one of its three outcome paths. -/
theorem stop_one_transcript (models : Registry) (s : HandlerState) (buf : WavBuffer)
    (h : s.wavFile = some buf) :
    ∃ (s1 : HandlerState) (acts : List Action),
      handleEvent models s InEvent.audioStop = Except.ok (s1, acts, false) ∧
      countTranscripts acts = 1 := by
  cases hsel : selectModel models (effectiveLang s.requestLanguage) with
  | none => exact ⟨_, _, stop_resolution_fail models s buf h hsel, rfl⟩
  | some m =>
    cases hrec : m.recognize (monoWaveform buf.frames buf.channels)
        (effectiveLang s.requestLanguage) buf.rate with
    | error e => exact ⟨_, _, stop_recognize_error models s buf m e h hsel hrec, rfl⟩
    | ok text => exact ⟨_, _, stop_recognize_ok models s buf m text h hsel hrec, rfl⟩

/-- Running an event that continues prepends its actions to the rest of the
run. -/
theorem runEvents_cons (models : Registry) (s : HandlerState) (e : InEvent)
    (es : List InEvent) (s1 : HandlerState) (acts : List Action)
    (h : handleEvent models s e = Except.ok (s1, acts, true)) :
    runEvents models s (e :: es) =
      match runEvents models s1 es with
      | Except.error err => Except.error err
      | Except.ok (s2, acts2) => Except.ok (s2, acts ++ acts2) := by
  simp only [runEvents, h, if_true]

/-- Running an event whose continue flag is `False` ends the run there. -/
theorem runEvents_halt (models : Registry) (s : HandlerState) (e : InEvent)
    (es : List InEvent) (s1 : HandlerState) (acts : List Action)
    (h : handleEvent models s e = Except.ok (s1, acts, false)) :
    runEvents models s (e :: es) = Except.ok (s1, acts) := by
  simp only [runEvents, h, Bool.false_eq_true, if_false]

/-- Down-mixing with well-formed frames is the arithmetic mean across
channels: every frame of width `channels` maps to its sum divided by the
channel count. -/
theorem monoWaveform_mean (frames : List (List ℚ)) (channels : Nat)
    (hc : 1 < channels) (hlen : ∀ f ∈ frames, f.length = channels) :
    monoWaveform frames channels = frames.map fun f => f.sum / (channels : ℚ) := by
  unfold monoWaveform
  rw [if_pos hc]
  exact List.map_congr_left fun f hf => by rw [hlen f hf]

/-- One interleaving step preserves the lock invariant. -/
theorem lockInv_step {a b : SysState} (hstep : SysStep a b) (hinv : LockInv a) :
    LockInv b := by
  cases hstep with
  | request i tag hph =>
    intro j t hj
    by_cases hij : i = j
    · subst hij
      rw [List.getElem?_set_self', hph] at hj
      simp at hj
    · rw [List.getElem?_set_ne hij] at hj
      exact hinv j t hj
  | acquire i tag hfree hph =>
    intro j t hj
    by_cases hij : i = j
    · subst hij; rfl
    · rw [List.getElem?_set_ne hij] at hj
      exact absurd (hinv j t hj) (by simp [hfree])
  | release i tag hheld hph =>
    intro j t hj
    by_cases hij : i = j
    · subst hij
      rw [List.getElem?_set_self', hph] at hj
      simp at hj
    · rw [List.getElem?_set_ne hij] at hj
      have h2 := hinv j t hj
      rw [hheld] at h2
      exact absurd (Option.some.inj h2) hij

/-- The lock invariant holds in every reachable state. -/
theorem lockInv_reaches {a b : SysState} (h : Reaches a b) (hinv : LockInv a) :
    LockInv b := by
  induction h with
  | refl => exact hinv
  | tail _ hstep ih => exact lockInv_step hstep ih

/-- The lock invariant holds initially: no session is recognizing. -/
theorem lockInv_init (n : Nat) : LockInv (initSys n) := by
  intro i tag h
  exfalso
  simp only [initSys, List.getElem?_replicate] at h
  by_cases hi : i < n
  · rw [if_pos hi] at h
    exact Phase.noConfusion (Option.some.inj h)
  · rw [if_neg hi] at h
    exact Option.noConfusion h

/-- One handler step is insensitive to `initial_prompt`: with the prompt
projected away, both runs give the same Except-result, state components,
actions and continue flag. -/
theorem handleEvent_prompt (models : Registry) (rl : Option String)
    (wf : Option WavBuffer) (p p' : Option String) (e : InEvent) :
    (handleEvent models ⟨rl, wf, p⟩ e).map
        (fun r => (r.1.requestLanguage, r.1.wavFile, r.2)) =
      (handleEvent models ⟨rl, wf, p'⟩ e).map
        (fun r => (r.1.requestLanguage, r.1.wavFile, r.2)) := by
  cases e with
  | audioChunk rate width channels audio => cases wf <;> rfl
  | audioStop =>
    cases wf with
    | none => rfl
    | some buf =>
      simp only [handleEvent]
      cases hsel : selectModel models (effectiveLang rl) with
      | none => rfl
      | some m =>
        cases hrec : m.recognize (monoWaveform buf.frames buf.channels)
            (effectiveLang rl) buf.rate with
        | error e => simp only [hrec]; rfl
        | ok text => simp only [hrec]; rfl
  | transcribe lang => rfl
  | describe => rfl
  | otherEvent => rfl

/-- A whole run is insensitive to `initial_prompt`. -/
theorem runEvents_prompt (models : Registry) (events : List InEvent) :
    ∀ (rl : Option String) (wf : Option WavBuffer) (p p' : Option String),
    (runEvents models ⟨rl, wf, p⟩ events).map
        (fun r => (r.1.requestLanguage, r.1.wavFile, r.2)) =
      (runEvents models ⟨rl, wf, p'⟩ events).map
        (fun r => (r.1.requestLanguage, r.1.wavFile, r.2)) := by
  induction events with
  | nil => intro rl wf p p'; rfl
  | cons e es ih =>
    intro rl wf p p'
    have hstep := handleEvent_prompt models rl wf p p' e
    cases h1 : handleEvent models ⟨rl, wf, p⟩ e with
    | error err =>
      cases h2 : handleEvent models ⟨rl, wf, p'⟩ e with
      | error err2 =>
        cases err; cases err2
        simp only [runEvents, h1, h2]
      | ok r2 =>
        rw [h1, h2] at hstep
        simp [Except.map] at hstep
    | ok r1 =>
      cases h2 : handleEvent models ⟨rl, wf, p'⟩ e with
      | error err2 =>
        rw [h1, h2] at hstep
        simp [Except.map] at hstep
      | ok r2 =>
        rw [h1, h2] at hstep
        obtain ⟨s1, acts1, cont1⟩ := r1
        obtain ⟨s2, acts2, cont2⟩ := r2
        obtain ⟨q1, w1, pp1⟩ := s1
        obtain ⟨q2, w2, pp2⟩ := s2
        simp only [Except.map] at hstep
        have hobs := Except.ok.inj hstep
        have hq : q1 = q2 := congrArg (fun x => x.1) hobs
        have hw : w1 = w2 := congrArg (fun x => x.2.1) hobs
        have ha : acts1 = acts2 := congrArg (fun x => x.2.2.1) hobs
        have hc : cont1 = cont2 := congrArg (fun x => x.2.2.2) hobs
        subst hq; subst hw; subst ha; subst hc
        simp only [runEvents, h1, h2]
        cases cont1 with
        | false => rfl
        | true =>
          have hin := ih q1 w1 pp1 pp2
          cases hr1 : runEvents models ⟨q1, w1, pp1⟩ es with
          | error err =>
            cases hr2 : runEvents models ⟨q1, w1, pp2⟩ es with
            | error err2 =>
              cases err; cases err2
              simp [hr1, hr2]
            | ok rr2 =>
              rw [hr1, hr2] at hin
              simp [Except.map] at hin
          | ok rr1 =>
            cases hr2 : runEvents models ⟨q1, w1, pp2⟩ es with
            | error err2 =>
              rw [hr1, hr2] at hin
              simp [Except.map] at hin
            | ok rr2 =>
              rw [hr1, hr2] at hin
              obtain ⟨t1, bacts1⟩ := rr1
              obtain ⟨t2, bacts2⟩ := rr2
              simp only [Except.map] at hin
              have hobs2 := Except.ok.inj hin
              have hta : t1.requestLanguage = t2.requestLanguage :=
                congrArg (fun x => x.1) hobs2
              have htb : t1.wavFile = t2.wavFile := congrArg (fun x => x.2.1) hobs2
              have hbc : bacts1 = bacts2 := congrArg (fun x => x.2.2) hobs2
              simp [Except.map, hta, htb, hbc]

end OnnxAsr

/-! ## Claim theorems -/

namespace OnnxAsr

/-- C1 counterexample: a concrete recognizer-failure completion. The
utterance completes (the handler returns normally with its diagnostic
transcript and `False`), yet `request_language` still holds `some "en"`,
which is not unset. -/
theorem C1_counterexample :
    handleEvent regEnFail stEnPending InEvent.audioStop =
      Except.ok (⟨some "en", none, none⟩,
        [Action.acquireLock,
         Action.writeTranscript "ERROR: Transcription failed: boom",
         Action.releaseLock],
        false) ∧ (some "en" : Option String) ≠ none :=
  ⟨rfl, by decide⟩

/-- C1 amended: on an audio-stop completion the pending language is
cleared only on the success path; on the resolution-failure and
recognizer-failure paths it is left unchanged. -/
theorem C1_amended (models : Registry) (s : HandlerState) (buf : WavBuffer)
    (h : s.wavFile = some buf) :
    ((handleEvent models s InEvent.audioStop).toOption.map
        fun r => r.1.requestLanguage) =
      some (match selectModel models (effectiveLang s.requestLanguage) with
            | none => s.requestLanguage
            | some m =>
              match m.recognize (monoWaveform buf.frames buf.channels)
                  (effectiveLang s.requestLanguage) buf.rate with
              | Except.ok _ => none
              | Except.error _ => s.requestLanguage) := by
  cases hsel : selectModel models (effectiveLang s.requestLanguage) with
  | none => rw [stop_resolution_fail models s buf h hsel]; rfl
  | some m =>
    cases hrec : m.recognize (monoWaveform buf.frames buf.channels)
        (effectiveLang s.requestLanguage) buf.rate with
    | error e =>
      rw [stop_recognize_error models s buf m e h hsel hrec]
      simp only [hrec]
      rfl
    | ok text =>
      rw [stop_recognize_ok models s buf m text h hsel hrec]
      simp only [hrec]
      rfl

/-- C1 witness: a successful utterance with pending language `"en"` ends
with the pending language cleared. -/
theorem C1_amended_witness :
    ((handleEvent regEnOk stEnPending InEvent.audioStop).toOption.map
        fun r => r.1.requestLanguage) = some none :=
  C1_amended regEnOk stEnPending bufOne rfl

/-- C2 counterexample: with both `"en"` and `"multi"` loaded and the
pending language set to the empty string, the code resolves to the `"en"`
backend (Python `or` treats `""` as unset), while the claim's algorithm
(effective language is the pending language whenever it is set) resolves
`""` to the `"multi"` fallback. -/
theorem C2_counterexample :
    (selectModel regEM (effectiveLang (some "")) =
      specSelectModel regEM (specEffectiveLang (some ""))) = False := by
  apply eq_false
  intro h
  have h2 : backA = backB := Option.some.inj h
  have h3 := congrFun (congrFun (congrFun (congrArg Backend.recognize h2) []) "x") 0
  have h4 : (Except.ok "A" : Except String String) = Except.ok "B" := h3
  exact absurd (Except.ok.inj h4) (by decide)

/-- C2 amended: the effective language is the pending language if it is
set to a non-empty string, else `"en"`; with that effective language, and
over the registries this program builds (keys among `"en"` and `"multi"`),
the code's backend selection agrees exactly with the spec's preference
order: exact entry first, then `"multi"`, then `"en"`, else resolution
failure. -/
theorem C2_amended (models : Registry) (hkeys : models.keys ⊆ ["en", "multi"])
    (requestLanguage : Option String) :
    selectModel models (effectiveLang requestLanguage) =
      specSelectModel models (effectiveLang requestLanguage) :=
  select_eq_spec models hkeys (effectiveLang requestLanguage)

/-- C2 witness: pending language `"nl"` against the dual-model registry. -/
theorem C2_amended_witness :
    selectModel regEM (effectiveLang (some "nl")) =
      specSelectModel regEM (effectiveLang (some "nl")) :=
  C2_amended regEM (by decide) (some "nl")

/-- C3: for any sequence of one or more audio-chunk events followed by one
audio-stop, the run succeeds and writes exactly one transcript event
(success text or diagnostic) — chunks write nothing, and each of the three
stop outcomes writes exactly one. -/
theorem C3_single_response (models : Registry) (s : HandlerState)
    (chunks : List InEvent) (hne : chunks ≠ [])
    (hch : ∀ e ∈ chunks, isChunkEvent e = true) :
    ∃ (s1 : HandlerState) (acts : List Action),
      runEvents models s (chunks ++ [InEvent.audioStop]) = Except.ok (s1, acts) ∧
      countTranscripts acts = 1 := by
  induction chunks generalizing s with
  | nil => exact absurd rfl hne
  | cons c cs ih =>
    have hc := hch c (List.mem_cons_self c cs)
    cases c with
    | audioStop => simp [isChunkEvent] at hc
    | transcribe lang => simp [isChunkEvent] at hc
    | describe => simp [isChunkEvent] at hc
    | otherEvent => simp [isChunkEvent] at hc
    | audioChunk rate width channels audio =>
      obtain ⟨s1, hstep, hsome⟩ := handleEvent_chunk models s rate width channels audio
      obtain ⟨buf, hbuf⟩ := Option.isSome_iff_exists.mp hsome
      cases cs with
      | nil =>
        obtain ⟨s2, acts, hstop, hcount⟩ := stop_one_transcript models s1 buf hbuf
        refine ⟨s2, acts, ?_, hcount⟩
        rw [List.cons_append, List.nil_append,
          runEvents_cons models s _ _ s1 [] hstep,
          runEvents_halt models s1 _ _ s2 acts hstop]
        simp
      | cons c2 cs2 =>
        obtain ⟨s2, acts, hrun, hcount⟩ :=
          ih s1 (by simp) (fun e he => hch e (List.mem_cons_of_mem _ he))
        refine ⟨s2, acts, ?_, hcount⟩
        rw [List.cons_append, runEvents_cons models s _ _ s1 [] hstep, hrun]
        simp

/-- C3 witness: one chunk then stop against the loaded English model. -/
theorem C3_single_response_witness :
    ∃ (s1 : HandlerState) (acts : List Action),
      runEvents regEnOk (initState none)
          ([InEvent.audioChunk 16000 2 1 [[0]]] ++ [InEvent.audioStop]) =
        Except.ok (s1, acts) ∧
      countTranscripts acts = 1 :=
  C3_single_response regEnOk (initState none) [InEvent.audioChunk 16000 2 1 [[0]]]
    (by decide) (by decide)

/-- C4: on resolution failure with a non-empty requested language, the
handler returns normally (no exception) and writes one transcript whose
text names the requested language and the list of available backend tags. -/
theorem C4_resolution_diagnostic (models : Registry) (s : HandlerState)
    (buf : WavBuffer) (l : String)
    (h : s.wavFile = some buf) (hl : s.requestLanguage = some l) (hne : l ≠ "")
    (hsel : selectModel models (effectiveLang s.requestLanguage) = none) :
    handleEvent models s InEvent.audioStop =
      Except.ok ({ s with wavFile := none },
        [Action.writeTranscript ("ERROR: " ++ ("Language '" ++ l ++
          "' is not supported. Available models: " ++ pyStrList models.keys))],
        false) := by
  rw [stop_resolution_fail models s buf h hsel]
  have hmsg : resolutionErrorMsg s.requestLanguage models =
      "Language '" ++ l ++ "' is not supported. Available models: " ++
        pyStrList models.keys := by
    rw [hl]
    simp [resolutionErrorMsg, hne]
  rw [hmsg]

/-- C4 witness: requested language `"nl"` against an empty registry yields
the concrete diagnostic transcript, without raising. -/
theorem C4_resolution_diagnostic_witness :
    handleEvent emptyReg stNlPending InEvent.audioStop =
      Except.ok (⟨some "nl", none, none⟩,
        [Action.writeTranscript
          "ERROR: Language 'nl' is not supported. Available models: []"],
        false) :=
  C4_resolution_diagnostic emptyReg stNlPending bufOne "nl" rfl rfl
    (by decide) rfl

/-- C5: once a backend is selected, the handler returns normally with the
shared lock released at the end of its action trace in every outcome, and
when the recognizer raises, the single transcript wraps the underlying
message as `ERROR: Transcription failed: ...`. -/
theorem C5_recognizer_failure (models : Registry) (s : HandlerState)
    (buf : WavBuffer) (m : Backend)
    (h : s.wavFile = some buf)
    (hsel : selectModel models (effectiveLang s.requestLanguage) = some m) :
    (∃ r, handleEvent models s InEvent.audioStop = Except.ok r ∧
      lockHeldAfter r.2.1 false = false) ∧
    ∀ e, m.recognize (monoWaveform buf.frames buf.channels)
        (effectiveLang s.requestLanguage) buf.rate = Except.error e →
      handleEvent models s InEvent.audioStop =
        Except.ok ({ s with wavFile := none },
          [Action.acquireLock,
           Action.writeTranscript ("ERROR: Transcription failed: " ++ e),
           Action.releaseLock],
          false) := by
  constructor
  · cases hrec : m.recognize (monoWaveform buf.frames buf.channels)
        (effectiveLang s.requestLanguage) buf.rate with
    | error e => exact ⟨_, stop_recognize_error models s buf m e h hsel hrec, rfl⟩
    | ok text => exact ⟨_, stop_recognize_ok models s buf m text h hsel hrec, rfl⟩
  · intro e hrec
    exact stop_recognize_error models s buf m e h hsel hrec

/-- C5 witness: the failing English backend raises `"boom"`; the trace is
acquire, wrapped diagnostic transcript, release. -/
theorem C5_recognizer_failure_witness :
    handleEvent regEnFail stEnPending InEvent.audioStop =
      Except.ok (⟨some "en", none, none⟩,
        [Action.acquireLock,
         Action.writeTranscript "ERROR: Transcription failed: boom",
         Action.releaseLock],
        false) :=
  (C5_recognizer_failure regEnFail stEnPending bufOne failBackend rfl rfl).2
    "boom" rfl

/-- C6 counterexample: after the resolution-failure diagnostic transcript,
the handler returns the continue flag `False` — under the server's
event-loop contract (`handle_event` returning `False` ends per-connection
event processing) it signals the end of the session rather than leaving it
open for future utterances. -/
theorem C6_counterexample :
    ((handleEvent emptyReg stNlPending InEvent.audioStop).toOption.map
        fun r => r.2.2) = some false := rfl

/-- C6 amended: every completed utterance — resolution failure, recognizer
failure, and success alike — returns normally (the failure is reported
in-band as a transcript, never as an exception) and returns the same
continue flag `False` that the success path returns. -/
theorem C6_amended (models : Registry) (s : HandlerState) (buf : WavBuffer)
    (h : s.wavFile = some buf) :
    ((handleEvent models s InEvent.audioStop).toOption.map
        fun r => r.2.2) = some false := by
  cases hsel : selectModel models (effectiveLang s.requestLanguage) with
  | none => rw [stop_resolution_fail models s buf h hsel]; rfl
  | some m =>
    cases hrec : m.recognize (monoWaveform buf.frames buf.channels)
        (effectiveLang s.requestLanguage) buf.rate with
    | error e => rw [stop_recognize_error models s buf m e h hsel hrec]; rfl
    | ok text => rw [stop_recognize_ok models s buf m text h hsel hrec]; rfl

/-- C6 witness: the success path returns the same `False` flag. -/
theorem C6_amended_witness :
    ((handleEvent regEnOk stEnPending InEvent.audioStop).toOption.map
        fun r => r.2.2) = some false :=
  C6_amended regEnOk stEnPending bufOne rfl

/-- C7 counterexample: with the single shared `model_lock`, no reachable
state of the two-session system has session 0 inside `recognize` on
`"en"` while session 1 is inside `recognize` on `"multi"` — sessions on
different backends can never execute recognition concurrently, refuting
the claim's concurrent-execution half. -/
theorem C7_counterexample :
    (∃ st : SysState, Reaches (initSys 2) st ∧
      st.phases[0]? = some (Phase.recognizing "en") ∧
      st.phases[1]? = some (Phase.recognizing "multi")) = False := by
  apply eq_false
  rintro ⟨st, hre, h0, h1⟩
  have hinv := lockInv_reaches hre (lockInv_init 2)
  have e1 := hinv 0 "en" h0
  have e2 := hinv 1 "multi" h1
  rw [e1] at e2
  exact absurd (Option.some.inj e2) (by decide)

/-- C7 amended: the single global lock serializes all recognition calls:
in any reachable state, at most one session is inside `recognize`,
whatever the backend tags — mutual exclusion per backend holds, but
sessions on different backends are serialized too. -/
theorem C7_amended (n : Nat) (st : SysState) (hre : Reaches (initSys n) st)
    (i j : Nat) (t1 t2 : String)
    (hi : st.phases[i]? = some (Phase.recognizing t1))
    (hj : st.phases[j]? = some (Phase.recognizing t2)) : i = j := by
  have hinv := lockInv_reaches hre (lockInv_init n)
  have h1 := hinv i t1 hi
  have h2 := hinv j t2 hj
  rw [h1] at h2
  exact Option.some.inj h2

/-- C7 witness: a concrete reachable state with session 0 recognizing. -/
theorem C7_amended_witness : (0 : Nat) = 0 :=
  C7_amended 2 ⟨some 0, [Phase.recognizing "en", Phase.idle]⟩
    (Relation.ReflTransGen.tail
      (Relation.ReflTransGen.tail Relation.ReflTransGen.refl
        (SysStep.request (initSys 2) 0 "en" rfl))
      (SysStep.acquire ⟨none, [Phase.waiting "en", Phase.idle]⟩ 0 "en" rfl rfl))
    0 0 "en" "en" rfl rfl

/-- C8: on every audio-stop with an open buffer the handler returns
normally with the buffer closed and discarded (`wavFile = none`) no matter
which of the three outcomes occurs, and on well-formed multi-channel input
the finalized waveform is the per-frame arithmetic mean across channels. -/
theorem C8_finalize (models : Registry) (s : HandlerState) (buf : WavBuffer)
    (h : s.wavFile = some buf) :
    ((handleEvent models s InEvent.audioStop).toOption.map
        fun r => r.1.wavFile) = some none ∧
    (1 < buf.channels → (∀ f ∈ buf.frames, f.length = buf.channels) →
      monoWaveform buf.frames buf.channels =
        buf.frames.map fun f => f.sum / (buf.channels : ℚ)) := by
  constructor
  · cases hsel : selectModel models (effectiveLang s.requestLanguage) with
    | none => rw [stop_resolution_fail models s buf h hsel]; rfl
    | some m =>
      cases hrec : m.recognize (monoWaveform buf.frames buf.channels)
          (effectiveLang s.requestLanguage) buf.rate with
      | error e => rw [stop_recognize_error models s buf m e h hsel hrec]; rfl
      | ok text => rw [stop_recognize_ok models s buf m text h hsel hrec]; rfl
  · exact monoWaveform_mean buf.frames buf.channels

/-- C8 witness: a two-channel, two-frame utterance; the buffer is
discarded and the down-mix is the arithmetic mean of each frame. -/
theorem C8_finalize_witness :
    ((handleEvent regEnOk stStereo InEvent.audioStop).toOption.map
        fun r => r.1.wavFile) = some none ∧
    (1 < bufStereo.channels → (∀ f ∈ bufStereo.frames, f.length = bufStereo.channels) →
      monoWaveform bufStereo.frames bufStereo.channels =
        bufStereo.frames.map fun f => f.sum / (bufStereo.channels : ℚ)) :=
  C8_finalize regEnOk stStereo bufStereo rfl

/-- C9: an audio-stop with no open buffer fails the handler's assertion:
`handle_event` raises (no transcript is emitted) instead of returning. -/
theorem C9_stop_without_buffer (models : Registry) (s : HandlerState)
    (h : s.wavFile = none) :
    handleEvent models s InEvent.audioStop =
      Except.error HandlerError.assertionFailed := by
  simp only [handleEvent, h]

/-- C9 witness: a stop right after connection start raises the assertion
failure. -/
theorem C9_stop_without_buffer_witness :
    handleEvent regEnOk (initState none) InEvent.audioStop =
      Except.error HandlerError.assertionFailed :=
  C9_stop_without_buffer regEnOk (initState none) rfl

/-- C10: `initial_prompt` has no effect on any output: two sessions
differing only in the constructor's `initial_prompt` produce, on the same
inbound event sequence, identical results — same raised-or-returned
status, same action trace (hence identical transcript events), and the
same `request_language` and buffer state. -/
theorem C10_prompt_noninterference (models : Registry) (p1 p2 : Option String)
    (events : List InEvent) :
    (runEvents models (initState p1) events).map
        (fun r => (r.1.requestLanguage, r.1.wavFile, r.2)) =
      (runEvents models (initState p2) events).map
        (fun r => (r.1.requestLanguage, r.1.wavFile, r.2)) :=
  runEvents_prompt models events none none p1 p2

end OnnxAsr
